import Mathlib

/-!
# liboctave/oct-time.cc

A shallow embedding of `octave_time`, `octave_base_tm`, `octave_localtime`,
`octave_gmtime` and `octave_strptime` as defined in `liboctave/oct-time.cc`,
together with the properties of these functions that the specification
states.

Conventions of the embedding.

* C `int`, `time_t`, `LONGLONG` values are mathematical integers.  The source
  only copies them between members of the same width; the one place where it
  computes (`stamp`, performance-counter branch) uses the truncating C++
  division and remainder, rendered by `Int.tdiv` and `Int.tmod`.
* `size_t` buffer sizes are natural numbers, and `new char[bufsize]` is taken
  to succeed.
* The host's `localtime` and `gmtime` return a pointer that may be null
  (`none`).  `octave_base_tm::init` dereferences its argument without a test,
  so a call on a null pointer has no resulting object: the embedding gives
  `none` for it.
* C strings and `std::string` values are `String`s (the characters before
  the terminator).
* The host library (`mktime`, `localtime`, `gmtime`, `strftime`, `strptime`,
  the clock reads) is a parameter of every function that calls it.
* The preprocessor symbols `HAVE_STRUCT_TM_TM_ZONE` and `HAVE_TZNAME` are
  parameters: the first is the Boolean index `hz` of `struct tm`, the second
  is the presence of the `tzname` table.
-/

namespace OctTime

/-! ## Data model -/

/-- The type of the `tm_zone` member of the host `struct tm`: a string when
`HAVE_STRUCT_TM_TM_ZONE` is defined, and no information when the member does
not exist. -/
abbrev ZoneMember : Bool → Type
  | true => String
  | false => Unit

instance instDecidableEqZoneMember : (hz : Bool) → DecidableEq (ZoneMember hz)
  | true => inferInstanceAs (DecidableEq String)
  | false => inferInstanceAs (DecidableEq Unit)

/-- The host `struct tm`, as far as `oct-time.cc` reads and writes it.  The
index `hz` tells whether `HAVE_STRUCT_TM_TM_ZONE` is defined. -/
structure tm (hz : Bool) where
  tm_sec : Int
  tm_min : Int
  tm_hour : Int
  tm_mday : Int
  tm_mon : Int
  tm_year : Int
  tm_wday : Int
  tm_yday : Int
  tm_isdst : Int
  tm_zone : ZoneMember hz
  deriving DecidableEq

/-- The zone name carried by a host `struct tm`, when the member exists. -/
def tm.zone? : {hz : Bool} → tm hz → Option String
  | true, t => some t.tm_zone
  | false, _ => none

/-- Store a zone name in the `tm_zone` member, when the member exists
(`t.tm_zone = ps` under `#if defined (HAVE_STRUCT_TM_TM_ZONE)`). -/
def mkZone : (hz : Bool) → String → ZoneMember hz
  | true, s => s
  | false, _ => ()

/-- Class `octave_time`: seconds since the epoch and microseconds. -/
structure octave_time where
  ot_unix_time : Int
  ot_usec : Int
  deriving DecidableEq, Repr

/-- Class `octave_base_tm`: the broken-down time held by this module. -/
structure octave_base_tm where
  tm_usec : Int
  tm_sec : Int
  tm_min : Int
  tm_hour : Int
  tm_mday : Int
  tm_mon : Int
  tm_year : Int
  tm_wday : Int
  tm_yday : Int
  tm_isdst : Int
  tm_zone : String
  deriving DecidableEq, Repr

/-- Class `octave_strptime`: an `octave_base_tm` with the count `nchars`. -/
structure octave_strptime where
  base : octave_base_tm
  nchars : Int
  deriving DecidableEq, Repr

/-- The host time-zone name table `tzname[2]`; `none` when `HAVE_TZNAME` is
not defined. -/
abbrev TznameTable := Option (String × String)

/-- The host library functions on broken-down time that `oct-time.cc` calls.
`strftime bufsize fmt t` gives the return value of the host formatter and the
C string it leaves in the buffer; `strptime str fmt t` gives the offset `q - p`
of the returned pointer (`none` for a null pointer) and the `struct tm` as the
host leaves it.  `localtime t` and `gmtime t` give the structure pointed to by
the result, `none` for a null pointer. -/
structure Host (hz : Bool) where
  mktime : tm hz → Int
  localtime : Int → Option (tm hz)
  gmtime : Int → Option (tm hz)
  strftime : Nat → String → tm hz → Nat × String
  strptime : String → String → tm hz → Option Nat × tm hz

/-! ## Accessors and mutators of `octave_base_tm` -/

/-- Modelled from the spec: the accessors `sec ()`, ..., `usec ()`, `zone ()`
are declared in `oct-time.h`, which is not among the sources; each field
accessor returns the stored field.  This is `usec ()`. -/
def octave_base_tm.usec_get (self : octave_base_tm) : Int := self.tm_usec

/-- Modelled from the spec: `octave_time::usec ()` of `oct-time.h` returns the
stored microseconds. -/
def octave_time.usec (self : octave_time) : Int := self.ot_usec

/-- Modelled from the spec: the conversion `time_t t = ot` (operator declared
in `oct-time.h`) yields the epoch-seconds component. -/
def octave_time.to_time_t (self : octave_time) : Int := self.ot_unix_time

/-- `DEFINE_SET_INT_FIELD_FCN (usec, 0, 1000000)`, in the branch that is
compiled (`#else` of `#if 0`): the value is stored unchecked. -/
def octave_base_tm.usec (self : octave_base_tm) (v : Int) : octave_base_tm :=
  { self with tm_usec := v }

/-- `DEFINE_SET_INT_FIELD_FCN (sec, 0, 61)`. -/
def octave_base_tm.sec (self : octave_base_tm) (v : Int) : octave_base_tm :=
  { self with tm_sec := v }

/-- `DEFINE_SET_INT_FIELD_FCN (min, 0, 59)`. -/
def octave_base_tm.min (self : octave_base_tm) (v : Int) : octave_base_tm :=
  { self with tm_min := v }

/-- `DEFINE_SET_INT_FIELD_FCN (hour, 0, 23)`. -/
def octave_base_tm.hour (self : octave_base_tm) (v : Int) : octave_base_tm :=
  { self with tm_hour := v }

/-- `DEFINE_SET_INT_FIELD_FCN (mday, 1, 31)`. -/
def octave_base_tm.mday (self : octave_base_tm) (v : Int) : octave_base_tm :=
  { self with tm_mday := v }

/-- `DEFINE_SET_INT_FIELD_FCN (mon, 0, 11)`. -/
def octave_base_tm.mon (self : octave_base_tm) (v : Int) : octave_base_tm :=
  { self with tm_mon := v }

/-- `DEFINE_SET_INT_FIELD_FCN (year, INT_MIN, INT_MAX)`. -/
def octave_base_tm.year (self : octave_base_tm) (v : Int) : octave_base_tm :=
  { self with tm_year := v }

/-- `DEFINE_SET_INT_FIELD_FCN (wday, 0, 6)`. -/
def octave_base_tm.wday (self : octave_base_tm) (v : Int) : octave_base_tm :=
  { self with tm_wday := v }

/-- `DEFINE_SET_INT_FIELD_FCN (yday, 0, 365)`. -/
def octave_base_tm.yday (self : octave_base_tm) (v : Int) : octave_base_tm :=
  { self with tm_yday := v }

/-- `DEFINE_SET_INT_FIELD_FCN (isdst, 0, 1)`. -/
def octave_base_tm.isdst (self : octave_base_tm) (v : Int) : octave_base_tm :=
  { self with tm_isdst := v }

/-- `octave_base_tm::zone (const std::string&)`. -/
def octave_base_tm.zone (self : octave_base_tm) (s : String) : octave_base_tm :=
  { self with tm_zone := s }

/-! ## Marshalling to and from the host `struct tm` -/

/-- The local `struct tm t` that `octave_time::octave_time (const
octave_base_tm&)` and `octave_base_tm::strftime` fill from the object before
calling the host: nine integer members, and `tm_zone` when it exists.  The
constructor reads the members through the accessors `sec ()`, ..., `zone ()`
of `oct-time.h`, `strftime` reads them directly. -/
def octave_base_tm.to_tm (hz : Bool) (self : octave_base_tm) : tm hz :=
  { tm_sec := self.tm_sec
    tm_min := self.tm_min
    tm_hour := self.tm_hour
    tm_mday := self.tm_mday
    tm_mon := self.tm_mon
    tm_year := self.tm_year
    tm_wday := self.tm_wday
    tm_yday := self.tm_yday
    tm_isdst := self.tm_isdst
    tm_zone := mkZone hz self.tm_zone }

/-- The zone-name step of `octave_base_tm::init`:
`#if HAVE_STRUCT_TM_TM_ZONE` the member is copied; `#elif HAVE_TZNAME` the
table is indexed when `tm_isdst` is 0 or 1; in every other case no assignment
is made and the previous zone name stays. -/
def init_zone {hz : Bool} (tzname : TznameTable) (t : tm hz) (old : String) : String :=
  match t.zone? with
  | some z => z
  | none =>
    match tzname with
    | some tbl =>
      if t.tm_isdst = 0 then tbl.1
      else if t.tm_isdst = 1 then tbl.2
      else old
    | none => old

/-- `octave_base_tm::init (void *p)` on a pointer to a structure `t`: copy the
nine integer members of the host structure, then set the zone name.
`tm_usec` is not touched. -/
def octave_base_tm.init {hz : Bool} (tzname : TznameTable) (self : octave_base_tm)
    (t : tm hz) : octave_base_tm :=
  { tm_usec := self.tm_usec
    tm_sec := t.tm_sec
    tm_min := t.tm_min
    tm_hour := t.tm_hour
    tm_mday := t.tm_mday
    tm_mon := t.tm_mon
    tm_year := t.tm_year
    tm_wday := t.tm_wday
    tm_yday := t.tm_yday
    tm_isdst := t.tm_isdst
    tm_zone := init_zone tzname t self.tm_zone }

/-! ## `octave_time` from a broken-down time, local and UTC conversion -/

/-- `octave_time::octave_time (const octave_base_tm& tm)`. -/
def octave_time.of_base_tm {hz : Bool} (host : Host hz) (b : octave_base_tm) : octave_time :=
  { ot_unix_time := host.mktime (b.to_tm hz)
    ot_usec := b.usec_get }

/-- `octave_base_tm::init (void *p)` on the pointer a host conversion
returned.  The body starts with `tm_sec = t->tm_sec` and has no test of `t`:
on a null pointer the behaviour is undefined and no object results. -/
def octave_base_tm.init_ptr {hz : Bool} (tzname : TznameTable) (self : octave_base_tm)
    (p : Option (tm hz)) : Option octave_base_tm :=
  match p with
  | none => none
  | some t => some (octave_base_tm.init tzname self t)

/-- `octave_localtime::init (const octave_time& ot)`: `tm_usec` is assigned,
then the result of `localtime (&t)` goes to `octave_base_tm::init`. -/
def octave_localtime.init {hz : Bool} (host : Host hz) (tzname : TznameTable)
    (self : octave_base_tm) (ot : octave_time) : Option octave_base_tm :=
  octave_base_tm.init_ptr tzname { self with tm_usec := ot.usec }
    (host.localtime ot.to_time_t)

/-- `octave_gmtime::init (const octave_time& ot)`: `tm_usec` is assigned, then
the result of `gmtime (&t)` goes to `octave_base_tm::init`. -/
def octave_gmtime.init {hz : Bool} (host : Host hz) (tzname : TznameTable)
    (self : octave_base_tm) (ot : octave_time) : Option octave_base_tm :=
  octave_base_tm.init_ptr tzname { self with tm_usec := ot.usec }
    (host.gmtime ot.to_time_t)

/-! ## Formatting -/

/-- `#define STRFTIME_BUF_INITIAL_SIZE 128`. -/
def STRFTIME_BUF_INITIAL_SIZE : Nat := 128

/-- The loop `while (chars_written == 0)` of `octave_base_tm::strftime`.
`call bufsize` is the host call `::strftime (buf, bufsize, fmt_str, &t)` on a
fresh buffer of `bufsize` characters.  The loop has no bound in the source, so
the embedding counts iterations down from `fuel` and gives `none` when they
are used up.  The result is the C string left in the last buffer, together
with the buffer sizes of the host calls made, in order. -/
def strftime_loop (call : Nat → Nat × String) : Nat → Nat → Option (String × List Nat)
  | 0, _ => none
  | fuel + 1, bufsize =>
    if (call bufsize).1 = 0 then
      (strftime_loop call fuel (bufsize * 2)).map (fun p => (p.1, bufsize :: p.2))
    else
      some ((call bufsize).2, [bufsize])

/-- `octave_base_tm::strftime (const std::string& fmt)`: the returned string
and the buffer sizes of the host calls made. -/
def octave_base_tm.strftime {hz : Bool} (host : Host hz) (fuel : Nat)
    (self : octave_base_tm) (fmt : String) : Option (String × List Nat) :=
  if fmt = "" then some ("", [])
  else
    strftime_loop (fun bufsize => host.strftime bufsize fmt (self.to_tm hz)) fuel
      STRFTIME_BUF_INITIAL_SIZE

/-- The buffer size of the `k`-th host call (counting from 0). -/
def bufsize_at (k : Nat) : Nat := STRFTIME_BUF_INITIAL_SIZE * 2 ^ k

/-! ## Parsing -/

/-- The local `struct tm t` of `octave_strptime::init` before the host call:
every integer member 0 and, when the member exists, an empty zone name. -/
def blank_tm (hz : Bool) : tm hz :=
  { tm_sec := 0
    tm_min := 0
    tm_hour := 0
    tm_mday := 0
    tm_mon := 0
    tm_year := 0
    tm_wday := 0
    tm_yday := 0
    tm_isdst := 0
    tm_zone := mkZone hz "" }

/-- The assignment to `nchars` in `octave_strptime::init`:
`if (q) nchars = q - p + 1; else nchars = 0;`. -/
def nchars_of (q : Option Nat) : Int :=
  match q with
  | some k => (k : Int) + 1
  | none => 0

/-- `octave_strptime::init (const std::string& str, const std::string& fmt)`. -/
def octave_strptime.init {hz : Bool} (host : Host hz) (tzname : TznameTable)
    (self : octave_strptime) (str fmt : String) : octave_strptime :=
  { nchars := nchars_of (host.strptime str fmt (blank_tm hz)).1
    base := octave_base_tm.init tzname self.base (host.strptime str fmt (blank_tm hz)).2 }

/-! ## `octave_time::stamp` -/

/-- `stamp`, branch `#if defined (HAVE_GETTIMEOFDAY)`: both members are set
from the `struct timeval` the host fills. -/
def stamp_gettimeofday (tv_sec tv_usec : Int) (_self : octave_time) : octave_time :=
  { ot_unix_time := tv_sec
    ot_usec := tv_usec }

/-- `stamp`, final `#else` branch: `ot_unix_time = time (0);` and nothing
else, so `ot_usec` keeps the value it had. -/
def stamp_time_only (time0 : Int) (self : octave_time) : octave_time :=
  { self with ot_unix_time := time0 }

/-- `const LONGLONG TIME_OFFSET = 0x19db1ded53e8000LL;`. -/
def TIME_OFFSET : Int := 0x19db1ded53e8000

/-- The function-local statics of the performance-counter branch. -/
structure PerfStatics (D : Type) where
  init : Int
  base : Int
  t0 : Int
  dt : D

/-- The `double` operations of the performance-counter branch, kept abstract:
`zero` is the value of the zero-initialised `static double dt`,
`recip f` is `(double) 1000000.0 / (double) f` and
`scale d x` is `(LONGLONG) (d * (double) x)`. -/
structure DoubleOps (D : Type) where
  zero : D
  recip : Int → D
  scale : D → Int → Int

/-- The statics before the first call: `init = 1`, the others
zero-initialised. -/
def PerfStatics.initial {D : Type} (fl : DoubleOps D) : PerfStatics D :=
  { init := 1
    base := 0
    t0 := 0
    dt := fl.zero }

/-- What the host answers during one call of `stamp` in the
performance-counter branch.  `none` stands for a call that reports failure
(returns 0) and, for the two counter reads, leaves its argument as it was. -/
structure WinAnswers where
  QueryPerformanceFrequency : Option Int
  QueryPerformanceCounter_base : Option Int
  dwHighDateTime : Nat
  dwLowDateTime : Nat
  QueryPerformanceCounter_now : Option Int
  time0 : Int

/-- The `QuadPart` of a `LARGE_INTEGER` whose `HighPart` and `LowPart` were
assigned from the two 32-bit halves of a `FILETIME`: the 64 bits read as a
signed number. -/
def quad_of_halves (high low : Nat) : Int :=
  let u : Nat := (high % 2 ^ 32) * 2 ^ 32 + low % 2 ^ 32
  if u < 2 ^ 63 then (u : Int) else (u : Int) - 2 ^ 64

/-- The block `if (QueryPerformanceFrequency (&ifreq)) \x7b ... \x7d` inside
`if (init)`: the calibration attempt. -/
def calibrate {D : Type} (fl : DoubleOps D) (h : WinAnswers) (st : PerfStatics D) :
    PerfStatics D :=
  match h.QueryPerformanceFrequency with
  | some ifreq =>
    match h.QueryPerformanceCounter_base with
    | some b =>
      { init := 0
        base := b
        t0 := ((quad_of_halves h.dwHighDateTime h.dwLowDateTime) - TIME_OFFSET).tdiv 10
        dt := fl.recip ifreq }
    | none => { st with dt := fl.recip ifreq }
  | none => st

/-- The value `now.QuadPart` holds after the two assignments in the
`if (QueryPerformanceCounter (&now))` block: microseconds since the epoch
derived from the counter. -/
def counter_micros {D : Type} (fl : DoubleOps D) (st : PerfStatics D) (now : Int) : Int :=
  fl.scale st.dt (now - st.base) + st.t0

/-- The tail of `stamp` from `LARGE_INTEGER now;` to the end of the
branch. -/
def read_counter {D : Type} (fl : DoubleOps D) (h : WinAnswers) (st : PerfStatics D) :
    octave_time :=
  match h.QueryPerformanceCounter_now with
  | some now =>
    { ot_unix_time := (counter_micros fl st now).tdiv 1000000
      ot_usec := (counter_micros fl st now).tmod 1000000 }
  | none =>
    { ot_unix_time := h.time0
      ot_usec := 0 }

/-- `stamp`, branch `#elif defined (OCTAVE_USE_WINDOWS_API)`, as one step on
the statics.  Inside `if (init)` the test after the calibration attempt is
`if (! init)`, as written in the source. -/
def stamp_windows {D : Type} (fl : DoubleOps D) (h : WinAnswers) (st : PerfStatics D) :
    PerfStatics D × octave_time :=
  if st.init ≠ 0 then
    if (calibrate fl h st).init = 0 then
      (calibrate fl h st, { ot_unix_time := h.time0, ot_usec := 0 })
    else
      (calibrate fl h st, read_counter fl h (calibrate fl h st))
  else
    (st, read_counter fl h st)

/-- The whole-second fallback value: `ot_unix_time = time (0); ot_usec = 0;`. -/
def whole_second (h : WinAnswers) : octave_time :=
  { ot_unix_time := h.time0
    ot_usec := 0 }

/-- The counter-derived time split into seconds and microseconds. -/
def counter_time {D : Type} (fl : DoubleOps D) (st : PerfStatics D) (now : Int) : octave_time :=
  { ot_unix_time := (counter_micros fl st now).tdiv 1000000
    ot_usec := (counter_micros fl st now).tmod 1000000 }

/-- The microseconds invariant the data model states for `octave_time`. -/
def usec_normalized (v : Int) : Prop := 0 ≤ v ∧ v < 1000000

instance instDecidableUsecNormalized (v : Int) : Decidable (usec_normalized v) :=
  inferInstanceAs (Decidable (0 ≤ v ∧ v < 1000000))

/-! ## A small host, to evaluate the embedding on concrete inputs

The theorems below hold for every host.  The definitions of this section give
one host with the standard conventions of `struct tm` (`tm_year` counts from
1900, `tm_mon` from 0), restricted to what the evaluated inputs need. -/

/-- Read at most `width` decimal digits: the value read, the number of
characters read and the rest of the input. -/
def read_digits : Nat → List Char → Nat → Nat → Nat × Nat × List Char
  | 0, s, v, n => (v, n, s)
  | _ + 1, [], v, n => (v, n, [])
  | w + 1, c :: s, v, n =>
    if c.isDigit then read_digits w s (v * 10 + (c.toNat - 48)) (n + 1)
    else (v, n, c :: s)

/-- The sample host matcher (the host's `oct_strptime` is a parameter of the
embedding).  It matches the conversions `%Y` (up to four digits, stored as
years since 1900), `%m` (1 to 12, stored from 0), `%d` (1 to 31) and `%%`, and
ordinary characters, which match themselves; any other conversion fails.
`k` counts the input characters consumed so far. -/
def sample_strptime_aux {hz : Bool} : List Char → List Char → Nat → tm hz → Option Nat × tm hz
  | [], _, k, t => (some k, t)
  | [c], s, k, t =>
    match s with
    | d :: _ => if c = d then (some (k + 1), t) else (none, t)
    | [] => (none, t)
  | c :: c2 :: f, s, k, t =>
    if c = '%' then
      if c2 = 'Y' then
        if (read_digits 4 s 0 0).2.1 = 0 then (none, t)
        else
          sample_strptime_aux f (read_digits 4 s 0 0).2.2 (k + (read_digits 4 s 0 0).2.1)
            { t with tm_year := ((read_digits 4 s 0 0).1 : Int) - 1900 }
      else if c2 = 'm' then
        if (read_digits 2 s 0 0).2.1 = 0 ∨ (read_digits 2 s 0 0).1 < 1
            ∨ 12 < (read_digits 2 s 0 0).1 then (none, t)
        else
          sample_strptime_aux f (read_digits 2 s 0 0).2.2 (k + (read_digits 2 s 0 0).2.1)
            { t with tm_mon := ((read_digits 2 s 0 0).1 : Int) - 1 }
      else if c2 = 'd' then
        if (read_digits 2 s 0 0).2.1 = 0 ∨ (read_digits 2 s 0 0).1 < 1
            ∨ 31 < (read_digits 2 s 0 0).1 then (none, t)
        else
          sample_strptime_aux f (read_digits 2 s 0 0).2.2 (k + (read_digits 2 s 0 0).2.1)
            { t with tm_mday := ((read_digits 2 s 0 0).1 : Int) }
      else if c2 = '%' then
        match s with
        | d :: s2 => if d = '%' then sample_strptime_aux f s2 (k + 1) t else (none, t)
        | [] => (none, t)
      else (none, t)
    else
      match s with
      | d :: s2 => if c = d then sample_strptime_aux (c2 :: f) s2 (k + 1) t else (none, t)
      | [] => (none, t)

/-- The sample host matcher on strings. -/
def sample_strptime {hz : Bool} (str fmt : String) (t : tm hz) : Option Nat × tm hz :=
  sample_strptime_aux fmt.toList str.toList 0 t

/-- The sample host formatter's rendering: `%Z` gives the `tm_zone` member
(nothing when the member does not exist), `%%` gives a percent sign, any other
pair starting with a percent sign and every ordinary character is copied. -/
def sample_render_aux {hz : Bool} (t : tm hz) : List Char → List Char
  | [] => []
  | [c] => [c]
  | c :: c2 :: f =>
    if c = '%' then
      if c2 = 'Z' then
        (match t.zone? with
          | some z => z.toList
          | none => []) ++ sample_render_aux t f
      else if c2 = '%' then '%' :: sample_render_aux t f
      else c :: c2 :: sample_render_aux t f
    else c :: sample_render_aux t (c2 :: f)

/-- The sample rendering on strings. -/
def sample_render {hz : Bool} (fmt : String) (t : tm hz) : String :=
  String.mk (sample_render_aux t fmt.toList)

/-- The host formatter as the specification models it for a rendering
function `render`: when the rendering and its terminator fit in `bufsize`
characters the rendering is written and its length returned, otherwise 0 is
returned. -/
def fits_formatter {hz : Bool} (render : String → tm hz → String) (bufsize : Nat)
    (fmt : String) (t : tm hz) : Nat × String :=
  if (render fmt t).length < bufsize then ((render fmt t).length, render fmt t) else (0, "")

/-- The structure the sample `gmtime` points to, right for the instants of
January 1970 (`0 ≤ t < 31 * 86400`). -/
def sample_gmtime {hz : Bool} (t : Int) : tm hz :=
  { tm_sec := t % 60
    tm_min := t / 60 % 60
    tm_hour := t / 3600 % 24
    tm_mday := t / 86400 + 1
    tm_mon := 0
    tm_year := 70
    tm_wday := (t / 86400 + 4) % 7
    tm_yday := t / 86400
    tm_isdst := 0
    tm_zone := mkZone hz "UTC" }

/-- The sample `mktime` for a zone at offset zero: broken-down times of
January 1970 are mapped to their instant, with the seconds, minutes, hours and
days carried over; anything else is rejected with -1. -/
def sample_mktime {hz : Bool} (b : tm hz) : Int :=
  if b.tm_year = 70 ∧ b.tm_mon = 0 then
    b.tm_sec + 60 * b.tm_min + 3600 * b.tm_hour + 86400 * (b.tm_mday - 1)
  else -1

/-- The pointer the sample `gmtime` returns on a host with a 64-bit `time_t`:
null for the instants whose year does not fit the `int` member `tm_year`
(after 67767976233532799 or before -67768040609740800), the structure
otherwise. -/
def sample_gmtime_ptr {hz : Bool} (t : Int) : Option (tm hz) :=
  if t < -67768040609740800 ∨ 67767976233532799 < t then none
  else some (sample_gmtime t)

/-- The sample host; its local zone is at offset zero. -/
def sample_host (hz : Bool) : Host hz :=
  { mktime := sample_mktime
    localtime := sample_gmtime_ptr
    gmtime := sample_gmtime_ptr
    strftime := fits_formatter sample_render
    strptime := sample_strptime }

/-- The state of a default-constructed `octave_base_tm` that then had its
zone name set to `"unknown"`, used as the prior state in evaluations. -/
def sample_base_tm : octave_base_tm :=
  { tm_usec := 0
    tm_sec := 0
    tm_min := 0
    tm_hour := 0
    tm_mday := 0
    tm_mon := 0
    tm_year := 0
    tm_wday := 0
    tm_yday := 0
    tm_isdst := 0
    tm_zone := "unknown" }

/-- Exact rational arithmetic standing in for `double`: a value is a fraction
`(numerator, denominator)`.  It agrees with IEEE arithmetic wherever the
quotient `1000000 / f` and the product are integers below `2 ^ 53`, which is
the case at the inputs evaluated below (frequency 1000000, so `dt = 1.0`). -/
def exact_ops : DoubleOps (Int × Int) :=
  { zero := (0, 1)
    recip := fun f => (1000000, f)
    scale := fun d x => (d.1 * x).tdiv d.2 }

/-- The host formatter behaves on `fmt` and `t` as the specification models
it, with rendering `r`. -/
def FormatterModel {hz : Bool} (host : Host hz) (fmt : String) (t : tm hz) (r : String) : Prop :=
  ∀ bufsize : Nat,
    (r.length < bufsize → host.strftime bufsize fmt t = (r.length, r)) ∧
    (bufsize ≤ r.length → (host.strftime bufsize fmt t).1 = 0)

/-- The host matcher fills `struct tm` for the date `y`-`m`-`d` it read from
`str` under `fmt` by the standard convention: `tm_year` is the year minus
1900, `tm_mon` the month minus 1, `tm_mday` the day of the month. -/
def FillsDate {hz : Bool} (host : Host hz) (str fmt : String) (y m d : Int) : Prop :=
  (host.strptime str fmt (blank_tm hz)).2.tm_year = y - 1900 ∧
  (host.strptime str fmt (blank_tm hz)).2.tm_mon = m - 1 ∧
  (host.strptime str fmt (blank_tm hz)).2.tm_mday = d

/-- Host answers for a first call of `stamp` on which the calibration
succeeds: a counter at 1 MHz reading 1000, the system time
2023-11-14T22:13:20.250000Z as a `FILETIME`, and for the later read the
counter at 3000 and `time (0) = 1700000000`. -/
def calibrating_answers : WinAnswers :=
  { QueryPerformanceFrequency := some 1000000
    QueryPerformanceCounter_base := some 1000
    dwHighDateTime := 0x1da1747
    dwLowDateTime := 0xc69325a0
    QueryPerformanceCounter_now := some 3000
    time0 := 1700000000 }

/-- Host answers for a first call of `stamp` on which the calibrating counter
read fails and the later counter read succeeds. -/
def failing_answers : WinAnswers :=
  { QueryPerformanceFrequency := some 1000000
    QueryPerformanceCounter_base := none
    dwHighDateTime := 0x1da1747
    dwLowDateTime := 0xc69325a0
    QueryPerformanceCounter_now := some 3000
    time0 := 1700000000 }

/-- Host answers for a first call of `stamp` on which
`QueryPerformanceFrequency` fails and the later counter read succeeds. -/
def no_frequency_answers : WinAnswers :=
  { QueryPerformanceFrequency := none
    QueryPerformanceCounter_base := none
    dwHighDateTime := 0x1da1747
    dwLowDateTime := 0xc69325a0
    QueryPerformanceCounter_now := some 3000
    time0 := 1700000000 }

/-- A pattern of 130 ordinary characters, which the sample formatter renders
as itself. -/
def long_pattern : String := String.mk (List.replicate 130 'a')

/-! # Properties -/

/-! ## Parsing: the consumed-character count -/

/-- C1: for every host matcher, input text and pattern, `octave_strptime::init`
sets `nchars` to 0 when the host matcher returns no match position and to
`k + 1` when it returns the position `k` characters into the input; so
`nchars` is 0 exactly when the host matcher failed, and a match that consumes
the whole input of `n` characters gives `n + 1`. -/
theorem strptime_init_nchars {hz : Bool} (host : Host hz) (tzname : TznameTable)
    (self : octave_strptime) (str fmt : String) :
    ((host.strptime str fmt (blank_tm hz)).1 = none →
      (octave_strptime.init host tzname self str fmt).nchars = 0) ∧
    (∀ k : Nat, (host.strptime str fmt (blank_tm hz)).1 = some k →
      (octave_strptime.init host tzname self str fmt).nchars = (k : Int) + 1) ∧
    ((octave_strptime.init host tzname self str fmt).nchars = 0 ↔
      (host.strptime str fmt (blank_tm hz)).1 = none) ∧
    ((host.strptime str fmt (blank_tm hz)).1 = some str.length →
      (octave_strptime.init host tzname self str fmt).nchars = (str.length : Int) + 1) := by
  refine ⟨?_, ?_, ?_, ?_⟩
  · intro h
    simp [octave_strptime.init, nchars_of, h]
  · intro k h
    simp [octave_strptime.init, nchars_of, h]
  · cases h : (host.strptime str fmt (blank_tm hz)).1 with
    | none => simp [octave_strptime.init, nchars_of, h]
    | some k =>
      simp only [octave_strptime.init, nchars_of, h]
      constructor
      · intro h0
        omega
      · intro h0
        cases h0
  · intro h
    simp [octave_strptime.init, nchars_of, h]

/-- The sample matcher consumes the ten characters of `"2024-01-15"` under
`"%Y-%m-%d"`, and `nchars` is then 11. -/
theorem strptime_init_nchars_witness :
    ((sample_host true).strptime "2024-01-15" "%Y-%m-%d" (blank_tm true)).1 = some 10 ∧
    (octave_strptime.init (sample_host true) none ⟨sample_base_tm, 0⟩
      "2024-01-15" "%Y-%m-%d").nchars = 11 :=
  ⟨by decide,
   (strptime_init_nchars (sample_host true) none ⟨sample_base_tm, 0⟩
      "2024-01-15" "%Y-%m-%d").2.1 10 (by decide)⟩

/-! ## Formatting with the empty pattern -/

/-- C2: for every object state and every host, `octave_base_tm::strftime`
called with the empty pattern returns the empty string and makes no host call
(the list of host calls is empty), whatever the iteration bound. -/
theorem strftime_empty_fmt {hz : Bool} (host : Host hz) (fuel : Nat) (self : octave_base_tm) :
    octave_base_tm.strftime host fuel self "" = some ("", []) := by
  simp [octave_base_tm.strftime]

/-! ## Local conversion and back -/

/-- The zone member written by the constructor from a zone name that `init`
took from a host structure is the zone member of that structure. -/
theorem mkZone_init_zone {hz : Bool} (tzname : TznameTable) (t : tm hz) (old : String) :
    mkZone hz (init_zone tzname t old) = t.tm_zone := by
  cases hz with
  | true => simp [mkZone, init_zone, tm.zone?]
  | false => rfl

/-- Marshalling an object that `octave_base_tm::init` filled from `t` gives
back `t`. -/
theorem to_tm_init {hz : Bool} (tzname : TznameTable) (self : octave_base_tm) (t : tm hz) :
    (octave_base_tm.init tzname self t).to_tm hz = t := by
  cases t
  simp only [octave_base_tm.to_tm, octave_base_tm.init, mkZone_init_zone]

/-- The constructor's marshalling of the object that a conversion `init`
produced from the pointer `p` gives back the structure `p` points to. -/
theorem to_tm_init_ptr {hz : Bool} (tzname : TznameTable) (self : octave_base_tm)
    (p : Option (tm hz)) :
    (octave_base_tm.init_ptr tzname self p).map (octave_base_tm.to_tm hz) = p := by
  cases p with
  | none => rfl
  | some t => simp only [octave_base_tm.init_ptr, Option.map_some', to_tm_init]

/-- C3: for every epoch-seconds value `t` (and any microseconds `u`, build
configuration and prior object state), the `struct tm` that the constructor
`octave_time (const octave_base_tm&)` hands to `mktime` after
`octave_localtime::init` is the one `localtime` produced, member for member;
hence, when the host satisfies `mktime (localtime (t)) = t` (with `lt` the
structure `localtime (t)` points to), the round trip yields epoch seconds `t`
again. -/
theorem localtime_round_trip {hz : Bool} (host : Host hz) (tzname : TznameTable)
    (self : octave_base_tm) (t u : Int) (lt : tm hz)
    (hlt : host.localtime t = some lt) (hhost : host.mktime lt = t) :
    ∃ b, octave_localtime.init host tzname self ⟨t, u⟩ = some b ∧
      b.to_tm hz = lt ∧
      (octave_time.of_base_tm host b).ot_unix_time = t := by
  refine ⟨octave_base_tm.init tzname { self with tm_usec := u } lt, ?_, ?_, ?_⟩
  · simp only [octave_localtime.init, octave_time.to_time_t, octave_time.usec, hlt,
      octave_base_tm.init_ptr]
  · exact to_tm_init tzname _ lt
  · simp only [octave_time.of_base_tm, to_tm_init, hhost]

/-- The round trip on the sample host at `t = 1000000`. -/
theorem localtime_round_trip_witness :
    ((sample_host true).localtime 1000000).map (sample_host true).mktime = some 1000000 ∧
    ∃ b, octave_localtime.init (sample_host true) none sample_base_tm ⟨1000000, 7⟩ = some b ∧
      b.to_tm true = sample_gmtime 1000000 ∧
      (octave_time.of_base_tm (sample_host true) b).ot_unix_time = 1000000 :=
  ⟨by decide,
   localtime_round_trip (sample_host true) none sample_base_tm 1000000 7
     (sample_gmtime 1000000) (by decide) (by decide)⟩

/-! ## Microseconds -/

/-- Whenever the host conversion returns a structure, the object has
`tm_usec = u` after `octave_localtime::init` and after `octave_gmtime::init`,
whatever the structure holds; on a null pointer no object results. -/
theorem init_copies_usec_of_struct {hz : Bool} (host : Host hz) (tzname : TznameTable)
    (self : octave_base_tm) (t u : Int) :
    (∀ lt, host.localtime t = some lt →
      ∃ b, octave_localtime.init host tzname self ⟨t, u⟩ = some b ∧ b.tm_usec = u) ∧
    (∀ gt, host.gmtime t = some gt →
      ∃ b, octave_gmtime.init host tzname self ⟨t, u⟩ = some b ∧ b.tm_usec = u) ∧
    (host.localtime t = none → octave_localtime.init host tzname self ⟨t, u⟩ = none) ∧
    (host.gmtime t = none → octave_gmtime.init host tzname self ⟨t, u⟩ = none) := by
  refine ⟨?_, ?_, ?_, ?_⟩
  · intro lt hlt
    refine ⟨octave_base_tm.init tzname { self with tm_usec := u } lt, ?_, rfl⟩
    simp only [octave_localtime.init, octave_time.to_time_t, octave_time.usec, hlt,
      octave_base_tm.init_ptr]
  · intro gt hgt
    refine ⟨octave_base_tm.init tzname { self with tm_usec := u } gt, ?_, rfl⟩
    simp only [octave_gmtime.init, octave_time.to_time_t, octave_time.usec, hgt,
      octave_base_tm.init_ptr]
  · intro hnull
    simp only [octave_localtime.init, octave_time.to_time_t, hnull, octave_base_tm.init_ptr]
  · intro hnull
    simp only [octave_gmtime.init, octave_time.to_time_t, hnull, octave_base_tm.init_ptr]

/-- C4 (the code at the failing input): for the `octave_time` with epoch
seconds `10 ^ 17` and microseconds 5, on a host with a 64-bit `time_t`,
`localtime` and `gmtime` return a null pointer (the year does not fit `int`);
`octave_localtime::init` and `octave_gmtime::init` hand it to
`octave_base_tm::init`, which dereferences it, so no object with
`tm_usec = 5` results. -/
theorem init_null_conversion :
    (sample_host true).localtime 100000000000000000 = none ∧
    (sample_host true).gmtime 100000000000000000 = none ∧
    octave_localtime.init (sample_host true) none sample_base_tm
      ⟨100000000000000000, 5⟩ = none ∧
    octave_gmtime.init (sample_host true) none sample_base_tm
      ⟨100000000000000000, 5⟩ = none ∧
    (octave_localtime.init (sample_host true) none sample_base_tm
      ⟨100000000000000000, 5⟩).map (fun b => b.tm_usec) ≠ some 5 := by
  refine ⟨?_, ?_, ?_, ?_, ?_⟩ <;> decide

/-- The seconds and microseconds that the performance-counter branch splits
a microsecond count into: when the seconds are positive the microseconds are
normalized. -/
theorem tmod_normalized_of_tdiv_pos (q : Int) (h : 0 < q.tdiv 1000000) :
    usec_normalized (q.tmod 1000000) := by
  have hq : 0 ≤ q := by
    by_contra hneg
    have h1 : 0 ≤ (-q).tdiv 1000000 := Int.tdiv_nonneg (by omega) (by norm_num)
    rw [Int.neg_tdiv] at h1
    omega
  exact ⟨Int.tmod_nonneg _ hq, Int.tmod_lt_of_pos _ (by norm_num)⟩

/-- The time read by the tail of the performance-counter branch has
normalized microseconds when its seconds are positive. -/
theorem read_counter_normalized {D : Type} (fl : DoubleOps D) (h : WinAnswers)
    (st : PerfStatics D) (hpos : 0 < (read_counter fl h st).ot_unix_time) :
    usec_normalized (read_counter fl h st).ot_usec := by
  unfold read_counter at hpos ⊢
  cases hq : h.QueryPerformanceCounter_now with
  | none => simp [usec_normalized]
  | some now =>
    simp only [hq] at hpos ⊢
    exact tmod_normalized_of_tdiv_pos _ hpos

/-- C5 (counterexample): an `octave_base_tm` whose microseconds were set with
`usec (-5)`, or with `usec (1000000)`, gives through the constructor
`octave_time (const octave_base_tm&)` an `octave_time` whose microseconds are
-5, respectively 1000000: outside `[0, 1000000)`. -/
theorem of_base_tm_usec_not_normalized :
    (octave_time.of_base_tm (sample_host true) (sample_base_tm.usec (-5))).ot_usec = -5 ∧
    ¬ usec_normalized
      (octave_time.of_base_tm (sample_host true) (sample_base_tm.usec (-5))).ot_usec ∧
    ¬ usec_normalized
      (octave_time.of_base_tm (sample_host true) (sample_base_tm.usec 1000000)).ot_usec := by
  decide

/-- C5 (amended): the constructor `octave_time (const octave_base_tm&)` copies
the microseconds field as it is, and `usec (v)` stores any `v`, so the result
has its microseconds in `[0, 1000000)` exactly when the field has.  `stamp`
gives microseconds in that range: with `gettimeofday`, when the host's
`tv_usec` is in the range; in the performance-counter branch, when the seconds
it yields are positive; in the `time (0)` branch, which does not write the
member, when it was in the range before the call. -/
theorem usec_of_produced_time {hz : Bool} (host : Host hz) (b : octave_base_tm) (v : Int)
    (tv_sec tv_usec time0 : Int) (ot : octave_time) {D : Type} (fl : DoubleOps D)
    (h : WinAnswers) (st : PerfStatics D) :
    (octave_time.of_base_tm host (b.usec v)).ot_usec = v ∧
    (usec_normalized (octave_time.of_base_tm host b).ot_usec ↔ usec_normalized b.tm_usec) ∧
    (usec_normalized tv_usec →
      usec_normalized (stamp_gettimeofday tv_sec tv_usec ot).ot_usec) ∧
    (0 < (stamp_windows fl h st).2.ot_unix_time →
      usec_normalized (stamp_windows fl h st).2.ot_usec) ∧
    (usec_normalized ot.ot_usec → usec_normalized (stamp_time_only time0 ot).ot_usec) := by
  refine ⟨rfl, Iff.rfl, fun hu => hu, ?_, fun hu => hu⟩
  unfold stamp_windows
  by_cases hinit : st.init ≠ 0
  · by_cases hcal : (calibrate fl h st).init = 0
    · rw [if_pos hinit, if_pos hcal]
      intro _
      exact ⟨le_refl 0, by norm_num⟩
    · rw [if_pos hinit, if_neg hcal]
      exact read_counter_normalized fl h _
  · rw [if_neg hinit]
    exact read_counter_normalized fl h _

/-- The amended statement at concrete values: a stored 999999 comes back as
999999, and a later counter read of the calibrated sample statics gives
normalized microseconds. -/
theorem usec_of_produced_time_witness :
    (octave_time.of_base_tm (sample_host true) (sample_base_tm.usec 999999)).ot_usec = 999999 ∧
    0 < (stamp_windows exact_ops ⟨none, none, 0, 0, some 2500000, 1700000000⟩
      ⟨0, 1000, 1700000000000000, (1000000, 1000000)⟩).2.ot_unix_time ∧
    usec_normalized (stamp_windows exact_ops ⟨none, none, 0, 0, some 2500000, 1700000000⟩
      ⟨0, 1000, 1700000000000000, (1000000, 1000000)⟩).2.ot_usec ∧
    usec_normalized (stamp_gettimeofday 1700000000 250000 ⟨0, 0⟩).ot_usec ∧
    usec_normalized (stamp_time_only 1700000000 ⟨0, 0⟩).ot_usec :=
  ⟨(usec_of_produced_time (sample_host true) sample_base_tm 999999 1700000000 250000
      1700000000 ⟨0, 0⟩ exact_ops ⟨none, none, 0, 0, some 2500000, 1700000000⟩
      ⟨0, 1000, 1700000000000000, (1000000, 1000000)⟩).1,
   by decide,
   (usec_of_produced_time (sample_host true) sample_base_tm 999999 1700000000 250000
      1700000000 ⟨0, 0⟩ exact_ops ⟨none, none, 0, 0, some 2500000, 1700000000⟩
      ⟨0, 1000, 1700000000000000, (1000000, 1000000)⟩).2.2.2.1 (by decide),
   (usec_of_produced_time (sample_host true) sample_base_tm 999999 1700000000 250000
      1700000000 ⟨0, 0⟩ exact_ops ⟨none, none, 0, 0, some 2500000, 1700000000⟩
      ⟨0, 1000, 1700000000000000, (1000000, 1000000)⟩).2.2.1 (by decide),
   (usec_of_produced_time (sample_host true) sample_base_tm 999999 1700000000 250000
      1700000000 ⟨0, 0⟩ exact_ops ⟨none, none, 0, 0, some 2500000, 1700000000⟩
      ⟨0, 1000, 1700000000000000, (1000000, 1000000)⟩).2.2.2.2 (by decide)⟩

/-! ## The zone name set by `octave_base_tm::init` -/

/-- C6 (counterexample): in a build without the `tm_zone` member and with the
`tzname` table, a host structure whose DST flag is -1 leaves the zone name of
the object as it was, here `"unknown"`, not empty. -/
theorem init_zone_not_emptied :
    (octave_base_tm.init (some ("EST", "EDT")) sample_base_tm
      ({ blank_tm false with tm_isdst := -1 } : tm false)).tm_zone = "unknown" ∧
    (octave_base_tm.init (some ("EST", "EDT")) sample_base_tm
      ({ blank_tm false with tm_isdst := -1 } : tm false)).tm_zone ≠ "" ∧
    (octave_base_tm.init none sample_base_tm (blank_tm false)).tm_zone ≠ "" := by
  decide

/-- C6 (amended): for every host structure `t` and prior state,
`octave_base_tm::init` sets the zone name thus: if the host struct carries a
zone-name member, the zone name becomes that member's value; otherwise, if the
`tzname` table exists and `t`'s DST flag is 0 or 1, it becomes the table entry
at that index; otherwise the zone name keeps the value it had before the call.
In all three cases the nine integer fields equal those of `t`. -/
theorem init_zone_rule {hz : Bool} (tzname : TznameTable) (self : octave_base_tm) (t : tm hz) :
    (∀ z : String, t.zone? = some z → (octave_base_tm.init tzname self t).tm_zone = z) ∧
    (∀ tbl : String × String, t.zone? = none → tzname = some tbl → t.tm_isdst = 0 →
      (octave_base_tm.init tzname self t).tm_zone = tbl.1) ∧
    (∀ tbl : String × String, t.zone? = none → tzname = some tbl → t.tm_isdst = 1 →
      (octave_base_tm.init tzname self t).tm_zone = tbl.2) ∧
    (t.zone? = none → (tzname = none ∨ (t.tm_isdst ≠ 0 ∧ t.tm_isdst ≠ 1)) →
      (octave_base_tm.init tzname self t).tm_zone = self.tm_zone) ∧
    ((octave_base_tm.init tzname self t).tm_sec = t.tm_sec ∧
      (octave_base_tm.init tzname self t).tm_min = t.tm_min ∧
      (octave_base_tm.init tzname self t).tm_hour = t.tm_hour ∧
      (octave_base_tm.init tzname self t).tm_mday = t.tm_mday ∧
      (octave_base_tm.init tzname self t).tm_mon = t.tm_mon ∧
      (octave_base_tm.init tzname self t).tm_year = t.tm_year ∧
      (octave_base_tm.init tzname self t).tm_wday = t.tm_wday ∧
      (octave_base_tm.init tzname self t).tm_yday = t.tm_yday ∧
      (octave_base_tm.init tzname self t).tm_isdst = t.tm_isdst) := by
  refine ⟨?_, ?_, ?_, ?_, ⟨rfl, rfl, rfl, rfl, rfl, rfl, rfl, rfl, rfl⟩⟩
  · intro z hz1
    simp [octave_base_tm.init, init_zone, hz1]
  · intro tbl hz1 htab h0
    simp [octave_base_tm.init, init_zone, hz1, htab, h0]
  · intro tbl hz1 htab h1
    simp [octave_base_tm.init, init_zone, hz1, htab, h1]
  · intro hz1 hcase
    rcases hcase with hnone | ⟨h0, h1⟩
    · simp [octave_base_tm.init, init_zone, hz1, hnone]
    · cases htab : tzname with
      | none => simp [octave_base_tm.init, init_zone, hz1]
      | some tbl => simp [octave_base_tm.init, init_zone, hz1, h0, h1]

/-- The three cases of the amended rule on concrete structures. -/
theorem init_zone_rule_witness :
    (octave_base_tm.init (some ("EST", "EDT")) sample_base_tm
      (sample_gmtime 5 : tm true)).tm_zone = "UTC" ∧
    (octave_base_tm.init (some ("EST", "EDT")) sample_base_tm
      ({ blank_tm false with tm_isdst := 1 } : tm false)).tm_zone = "EDT" ∧
    (octave_base_tm.init (some ("EST", "EDT")) sample_base_tm
      ({ blank_tm false with tm_isdst := 2 } : tm false)).tm_zone = "unknown" :=
  ⟨(init_zone_rule (some ("EST", "EDT")) sample_base_tm (sample_gmtime 5 : tm true)).1
      "UTC" (by decide),
   (init_zone_rule (some ("EST", "EDT")) sample_base_tm
      ({ blank_tm false with tm_isdst := 1 } : tm false)).2.2.1
      ("EST", "EDT") (by decide) rfl (by decide),
   (init_zone_rule (some ("EST", "EDT")) sample_base_tm
      ({ blank_tm false with tm_isdst := 2 } : tm false)).2.2.2.1
      (by decide) (Or.inr (by decide))⟩

/-! ## The year field -/

/-- C7 (counterexample): with the sample host matcher, which fills `struct tm`
by the standard convention, parsing `"2024-01-15"` against `"%Y-%m-%d"` gives
the year field 124, not 2024 (month 0 and day 15 are as stated). -/
theorem strptime_init_year_is_offset :
    FillsDate (sample_host true) "2024-01-15" "%Y-%m-%d" 2024 1 15 ∧
    (octave_strptime.init (sample_host true) none ⟨sample_base_tm, 0⟩
      "2024-01-15" "%Y-%m-%d").base.tm_year = 124 ∧
    (octave_strptime.init (sample_host true) none ⟨sample_base_tm, 0⟩
      "2024-01-15" "%Y-%m-%d").base.tm_year ≠ 2024 ∧
    (octave_strptime.init (sample_host true) none ⟨sample_base_tm, 0⟩
      "2024-01-15" "%Y-%m-%d").base.tm_mon = 0 ∧
    (octave_strptime.init (sample_host true) none ⟨sample_base_tm, 0⟩
      "2024-01-15" "%Y-%m-%d").base.tm_mday = 15 := by
  refine ⟨⟨?_, ?_, ?_⟩, ?_, ?_, ?_, ?_⟩ <;> decide

/-- C7 (amended): when the host matcher fills `struct tm` for the date
`y`-`m`-`d` by the standard convention, `octave_strptime::init` yields the
year field `y - 1900` (124 for 2024), the month field `m - 1` and the day
field `d`.  In general the year field after parse, local conversion or UTC
conversion is the host's `tm_year` as it is: a year counted from 1900 under
that convention, not the full calendar year. -/
theorem strptime_init_year {hz : Bool} (host : Host hz) (tzname : TznameTable)
    (self : octave_strptime) (b : octave_base_tm) (ot : octave_time) (str fmt : String)
    (y m d : Int) (hconv : FillsDate host str fmt y m d) :
    (octave_strptime.init host tzname self str fmt).base.tm_year = y - 1900 ∧
    (octave_strptime.init host tzname self str fmt).base.tm_mon = m - 1 ∧
    (octave_strptime.init host tzname self str fmt).base.tm_mday = d ∧
    (octave_strptime.init host tzname self str fmt).base.tm_year =
      (host.strptime str fmt (blank_tm hz)).2.tm_year ∧
    (octave_localtime.init host tzname b ot).map (fun r => r.tm_year) =
      (host.localtime ot.ot_unix_time).map (fun lt => lt.tm_year) ∧
    (octave_gmtime.init host tzname b ot).map (fun r => r.tm_year) =
      (host.gmtime ot.ot_unix_time).map (fun gt => gt.tm_year) := by
  refine ⟨hconv.1, hconv.2.1, hconv.2.2, rfl, ?_, ?_⟩
  · simp only [octave_localtime.init, octave_time.to_time_t]
    cases host.localtime ot.ot_unix_time <;> rfl
  · simp only [octave_gmtime.init, octave_time.to_time_t]
    cases host.gmtime ot.ot_unix_time <;> rfl

/-- The amended statement on the sample host: year field 124, month field 0,
day field 15. -/
theorem strptime_init_year_witness :
    (octave_strptime.init (sample_host false) none ⟨sample_base_tm, 0⟩
      "2024-01-15" "%Y-%m-%d").base.tm_year = 2024 - 1900 ∧
    (octave_strptime.init (sample_host false) none ⟨sample_base_tm, 0⟩
      "2024-01-15" "%Y-%m-%d").base.tm_mon = 1 - 1 ∧
    (octave_strptime.init (sample_host false) none ⟨sample_base_tm, 0⟩
      "2024-01-15" "%Y-%m-%d").base.tm_mday = 15 :=
  have h := strptime_init_year (sample_host false) none ⟨sample_base_tm, 0⟩ sample_base_tm
    ⟨0, 0⟩ "2024-01-15" "%Y-%m-%d" 2024 1 15 ⟨by decide, by decide, by decide⟩
  ⟨h.1, h.2.1, h.2.2.1⟩

/-! ## `stamp`, performance-counter branch -/

/-- On a call that finds `init` set and calibrates with success, `stamp`
returns the whole-second fallback and clears `init`. -/
theorem stamp_windows_calibrating_call {D : Type} (fl : DoubleOps D) (h : WinAnswers)
    (st : PerfStatics D) (ifreq b : Int) (hinit : st.init ≠ 0)
    (hf : h.QueryPerformanceFrequency = some ifreq)
    (hb : h.QueryPerformanceCounter_base = some b) :
    (stamp_windows fl h st).2 = whole_second h ∧ (stamp_windows fl h st).1.init = 0 := by
  have hcal : (calibrate fl h st).init = 0 := by simp [calibrate, hf, hb]
  unfold stamp_windows
  rw [if_pos hinit, if_pos hcal]
  exact ⟨rfl, hcal⟩

/-- On a call that finds `init` set and fails to calibrate, `stamp` goes on
to the counter read with the statics as the failed attempt left them. -/
theorem stamp_windows_failed_calibration {D : Type} (fl : DoubleOps D) (h : WinAnswers)
    (st : PerfStatics D) (hinit : st.init ≠ 0)
    (hfail : h.QueryPerformanceFrequency = none ∨ h.QueryPerformanceCounter_base = none) :
    (stamp_windows fl h st).2 = read_counter fl h (calibrate fl h st) ∧
    (stamp_windows fl h st).1.init = st.init := by
  have hcal : (calibrate fl h st).init = st.init := by
    rcases hfail with hf | hb
    · simp [calibrate, hf]
    · cases hf : h.QueryPerformanceFrequency with
      | none => simp [calibrate, hf]
      | some ifreq => simp [calibrate, hf, hb]
  have hne : ¬ (calibrate fl h st).init = 0 := by
    rw [hcal]
    exact hinit
  unfold stamp_windows
  rw [if_pos hinit, if_neg hne]
  exact ⟨rfl, hcal⟩

/-- On a call that finds `init` cleared, `stamp` returns the counter-derived
time when the counter read succeeds and the whole-second fallback when it
fails. -/
theorem stamp_windows_later_call {D : Type} (fl : DoubleOps D) (h : WinAnswers)
    (st : PerfStatics D) (hinit : st.init = 0) :
    (∀ now : Int, h.QueryPerformanceCounter_now = some now →
      (stamp_windows fl h st).2 = counter_time fl st now) ∧
    (h.QueryPerformanceCounter_now = none → (stamp_windows fl h st).2 = whole_second h) := by
  have hne : ¬ st.init ≠ 0 := by simp [hinit]
  unfold stamp_windows
  rw [if_neg hne]
  constructor
  · intro now hnow
    simp [read_counter, counter_time, hnow]
  · intro hnow
    simp [read_counter, whole_second, hnow]

/-- C8 (the code at the failing inputs): on the first call with a successful
calibration `stamp` returns the whole-second fallback `(1700000000, 0)` and
not the counter-derived time `(1700000000, 252000)`; on a first call whose
calibration fails while the later counter read succeeds it returns
`(0, 3000)`, respectively `(0, 0)`, and not `(time (0), 0)`. -/
theorem stamp_windows_first_call_inverted :
    (stamp_windows exact_ops calibrating_answers (PerfStatics.initial exact_ops)).2 =
      ⟨1700000000, 0⟩ ∧
    (stamp_windows exact_ops calibrating_answers (PerfStatics.initial exact_ops)).1.init = 0 ∧
    counter_time exact_ops
      (stamp_windows exact_ops calibrating_answers (PerfStatics.initial exact_ops)).1 3000 =
      ⟨1700000000, 252000⟩ ∧
    (stamp_windows exact_ops failing_answers (PerfStatics.initial exact_ops)).2 = ⟨0, 3000⟩ ∧
    (stamp_windows exact_ops failing_answers (PerfStatics.initial exact_ops)).2 ≠
      whole_second failing_answers ∧
    (stamp_windows exact_ops no_frequency_answers (PerfStatics.initial exact_ops)).2 =
      ⟨0, 0⟩ ∧
    (stamp_windows exact_ops no_frequency_answers (PerfStatics.initial exact_ops)).2 ≠
      whole_second no_frequency_answers := by
  refine ⟨?_, ?_, ?_, ?_, ?_, ?_, ?_⟩ <;> decide

/-! ## The buffer-doubling loop -/

/-- When the host reports 0 at every buffer size, the loop uses up any number
of iterations without returning. -/
theorem strftime_loop_none (call : Nat → Nat × String) (hzero : ∀ n, (call n).1 = 0) :
    ∀ fuel bufsize, strftime_loop call fuel bufsize = none := by
  intro fuel
  induction fuel with
  | zero => intro bufsize; rfl
  | succ n ih =>
    intro bufsize
    simp [strftime_loop, hzero bufsize, ih]

/-- When the host reports 0 at the sizes `b`, `2 b`, ..., `2 ^ (k - 1) b` and
a non-zero count at `2 ^ k b`, the loop, given more than `k` iterations, makes
exactly the calls at `b`, ..., `2 ^ k b` and returns the string of the last
one. -/
theorem strftime_loop_run (call : Nat → Nat × String) :
    ∀ (k fuel b : Nat), (∀ j, j < k → (call (b * 2 ^ j)).1 = 0) →
      (call (b * 2 ^ k)).1 ≠ 0 → k < fuel →
      strftime_loop call fuel b =
        some ((call (b * 2 ^ k)).2, (List.range (k + 1)).map (fun j => b * 2 ^ j)) := by
  intro k
  induction k with
  | zero =>
    intro fuel b _ hlast hfuel
    obtain ⟨n, rfl⟩ : ∃ n, fuel = n + 1 := ⟨fuel - 1, by omega⟩
    have h0 : (call b).1 ≠ 0 := by simpa using hlast
    simp [strftime_loop, h0, List.range_succ]
  | succ k ih =>
    intro fuel b hsmall hlast hfuel
    obtain ⟨n, rfl⟩ : ∃ n, fuel = n + 1 := ⟨fuel - 1, by omega⟩
    have h0 : (call b).1 = 0 := by simpa using hsmall 0 (by omega)
    have hshift : ∀ j, b * 2 * 2 ^ j = b * 2 ^ (j + 1) := by
      intro j
      rw [pow_succ]
      ring
    have hrec := ih n (b * 2)
      (by
        intro j hj
        rw [hshift]
        exact hsmall (j + 1) (by omega))
      (by
        rw [hshift]
        exact hlast)
      (by omega)
    rw [strftime_loop, if_pos h0, hrec, Option.map_some']
    rw [hshift k, List.range_succ_eq_map (k + 1), List.map_cons, List.map_map]
    simp only [pow_zero, mul_one]
    congr 2
    apply congrArg
    apply List.map_congr_left
    intro j _
    simp only [Function.comp, Nat.succ_eq_add_one]
    exact hshift j

/-- Every length is below some buffer size of the doubling sequence. -/
theorem exists_bufsize_gt (L : Nat) : ∃ k, L < bufsize_at k :=
  ⟨L, lt_of_lt_of_le (Nat.lt_two_pow L)
    (by
      unfold bufsize_at STRFTIME_BUF_INITIAL_SIZE
      exact Nat.le_mul_of_pos_left _ (by norm_num))⟩

/-- C9 (counterexample): with the sample host formatter, which behaves as the
specification models it, the non-empty pattern `"%Z"` and an empty zone name
render as the empty string; the host then reports 0 characters at every
buffer size `128 * 2 ^ k`, and the loop does not return for any number of
iterations. -/
theorem strftime_empty_rendering_never_reports :
    ("%Z" : String) ≠ "" ∧
    FormatterModel (sample_host true) "%Z" ((sample_base_tm.zone "").to_tm true) "" ∧
    (∀ k, ((sample_host true).strftime (bufsize_at k) "%Z"
      ((sample_base_tm.zone "").to_tm true)).1 = 0) ∧
    (∀ fuel, octave_base_tm.strftime (sample_host true) fuel (sample_base_tm.zone "") "%Z"
      = none) := by
  have hr : sample_render "%Z" ((sample_base_tm.zone "").to_tm true) = "" := by decide
  have hcall : ∀ n, ((sample_host true).strftime n "%Z"
      ((sample_base_tm.zone "").to_tm true)).1 = 0 := by
    intro n
    simp only [sample_host, fits_formatter, hr]
    split <;> rfl
  refine ⟨by decide, ?_, fun k => hcall _, ?_⟩
  · intro n
    constructor
    · intro hlt
      simp only [sample_host, fits_formatter, hr]
      rw [if_pos hlt]
    · intro _
      exact hcall n
  · intro fuel
    have hne : ¬ ("%Z" : String) = "" := by decide
    unfold octave_base_tm.strftime
    rw [if_neg hne]
    exact strftime_loop_none _ hcall fuel _

/-- C9 (amended): for every non-empty pattern and field set, with the host
formatter behaving as the specification models it for a rendering `r`, there
is a buffer size `128 * 2 ^ k` at which the host reports a non-zero count
exactly when `r` is not empty; in that case the loop returns, given enough
iterations. -/
theorem strftime_loop_terminates_iff {hz : Bool} (host : Host hz) (self : octave_base_tm)
    (fmt r : String) (hfmt : fmt ≠ "") (hmodel : FormatterModel host fmt (self.to_tm hz) r) :
    ((∃ k, (host.strftime (bufsize_at k) fmt (self.to_tm hz)).1 ≠ 0) ↔ 1 ≤ r.length) ∧
    (1 ≤ r.length → ∃ fuel result, octave_base_tm.strftime host fuel self fmt = some result) := by
  have hfwd : 1 ≤ r.length → ∃ k, (host.strftime (bufsize_at k) fmt (self.to_tm hz)).1 ≠ 0 := by
    intro hL
    obtain ⟨k, hk⟩ := exists_bufsize_gt r.length
    refine ⟨k, ?_⟩
    rw [(hmodel (bufsize_at k)).1 hk]
    simp only [ne_eq]
    omega
  refine ⟨⟨?_, hfwd⟩, ?_⟩
  · rintro ⟨k, hk⟩
    by_contra hL
    have h0 : r.length = 0 := by omega
    by_cases hlt : r.length < bufsize_at k
    · rw [(hmodel (bufsize_at k)).1 hlt] at hk
      exact hk h0
    · exact hk ((hmodel (bufsize_at k)).2 (by omega))
  · intro hL
    classical
    have hex := hfwd hL
    have hspec := Nat.find_spec hex
    have hmin : ∀ j, j < Nat.find hex →
        (host.strftime (STRFTIME_BUF_INITIAL_SIZE * 2 ^ j) fmt (self.to_tm hz)).1 = 0 := by
      intro j hj
      have := Nat.find_min hex hj
      simpa [bufsize_at] using this
    have hrun := strftime_loop_run (fun bufsize => host.strftime bufsize fmt (self.to_tm hz))
      (Nat.find hex) (Nat.find hex + 1) STRFTIME_BUF_INITIAL_SIZE hmin hspec (by omega)
    refine ⟨Nat.find hex + 1, ?_⟩
    unfold octave_base_tm.strftime
    rw [if_neg hfmt, hrun]
    exact ⟨_, rfl⟩

/-- The amended statement on the sample host with the pattern `"UTC%%"`,
rendered as `"UTC%"`. -/
theorem strftime_loop_terminates_iff_witness :
    ("UTC%%" : String) ≠ "" ∧
    ∃ fuel result,
      octave_base_tm.strftime (sample_host true) fuel sample_base_tm "UTC%%" = some result :=
  ⟨by decide,
   (strftime_loop_terminates_iff (sample_host true) sample_base_tm "UTC%%" "UTC%" (by decide)
      (by
        have hr : sample_render "UTC%%" (sample_base_tm.to_tm true) = "UTC%" := by decide
        intro n
        constructor
        · intro hlt
          simp only [sample_host, fits_formatter, hr]
          rw [if_pos hlt]
        · intro hle
          simp only [sample_host, fits_formatter, hr]
          rw [if_neg (by omega)])).2 (by decide)⟩

/-- The sample host behaves as the specification models the host formatter,
with the sample rendering. -/
theorem sample_host_formatter_model {hz : Bool} (fmt : String) (t : tm hz) :
    FormatterModel (sample_host hz) fmt t (sample_render fmt t) := by
  intro n
  constructor
  · intro hlt
    simp only [sample_host, fits_formatter]
    rw [if_pos hlt]
  · intro hle
    simp only [sample_host, fits_formatter]
    rw [if_neg (by omega)]

/-- C10: for every non-empty pattern and field set whose host rendering `r`
has length `L ≥ 1`, with the host formatter writing `r` and returning `L` when
`L < bufsize` and returning 0 otherwise, `octave_base_tm::strftime` returns
exactly `r`, having called the host formatter with the buffer sizes 128, 256,
512, ... in that order, up to and including the first size `128 * 2 ^ k` that
is greater than `L`; when `L < 128` that is the single call at size 128. -/
theorem strftime_returns_rendering {hz : Bool} (host : Host hz) (self : octave_base_tm)
    (fmt r : String) (hfmt : fmt ≠ "") (hL : 1 ≤ r.length)
    (hmodel : FormatterModel host fmt (self.to_tm hz) r) :
    ∃ k, r.length < bufsize_at k ∧ (∀ j, j < k → bufsize_at j ≤ r.length) ∧
      (∀ fuel, k < fuel →
        octave_base_tm.strftime host fuel self fmt =
          some (r, (List.range (k + 1)).map bufsize_at)) ∧
      (r.length < 128 → ∀ fuel, 0 < fuel →
        octave_base_tm.strftime host fuel self fmt = some (r, [128])) := by
  classical
  have hex := exists_bufsize_gt r.length
  have hspec : r.length < bufsize_at (Nat.find hex) := Nat.find_spec hex
  have hmin : ∀ j, j < Nat.find hex → bufsize_at j ≤ r.length := by
    intro j hj
    have := Nat.find_min hex hj
    omega
  have hrun : ∀ k, r.length < bufsize_at k → (∀ j, j < k → bufsize_at j ≤ r.length) →
      ∀ fuel, k < fuel →
        octave_base_tm.strftime host fuel self fmt =
          some (r, (List.range (k + 1)).map bufsize_at) := by
    intro k hk hsmall fuel hfuel
    have hlast : (host.strftime (STRFTIME_BUF_INITIAL_SIZE * 2 ^ k) fmt (self.to_tm hz))
        = (r.length, r) := (hmodel (bufsize_at k)).1 hk
    have hloop := strftime_loop_run (fun bufsize => host.strftime bufsize fmt (self.to_tm hz))
      k fuel STRFTIME_BUF_INITIAL_SIZE
      (fun j hj => (hmodel (bufsize_at j)).2 (hsmall j hj))
      (by
        show (host.strftime (STRFTIME_BUF_INITIAL_SIZE * 2 ^ k) fmt (self.to_tm hz)).1 ≠ 0
        rw [hlast]
        show r.length ≠ 0
        omega)
      hfuel
    unfold octave_base_tm.strftime
    rw [if_neg hfmt, hloop]
    show some ((host.strftime (STRFTIME_BUF_INITIAL_SIZE * 2 ^ k) fmt (self.to_tm hz)).2, _) = _
    rw [hlast]
    rfl
  refine ⟨Nat.find hex, hspec, hmin, hrun _ hspec hmin, ?_⟩
  intro h128 fuel hfuel
  have h0 := hrun 0 (by simpa [bufsize_at, STRFTIME_BUF_INITIAL_SIZE] using h128)
    (by intro j hj; omega) fuel hfuel
  rw [h0]
  rfl

set_option maxRecDepth 20000 in
/-- A rendering of 130 characters on the sample host: two host calls, at sizes
128 and 256, and the rendering is returned. -/
theorem strftime_returns_rendering_witness :
    long_pattern ≠ "" ∧ 1 ≤ long_pattern.length ∧
    octave_base_tm.strftime (sample_host true) 2 sample_base_tm long_pattern =
      some (long_pattern, [128, 256]) := by
  have hr : sample_render long_pattern (sample_base_tm.to_tm true) = long_pattern := by decide
  have hlen : long_pattern.length = 130 := by decide
  have hne : long_pattern ≠ "" := by decide
  have hm : FormatterModel (sample_host true) long_pattern (sample_base_tm.to_tm true)
      long_pattern := by
    have := sample_host_formatter_model long_pattern (sample_base_tm.to_tm true)
    rwa [hr] at this
  obtain ⟨k, hk, hsmall, hrun, _⟩ :=
    strftime_returns_rendering (sample_host true) sample_base_tm long_pattern long_pattern
      hne (by omega) hm
  have hk1 : k = 1 := by
    have h0 : bufsize_at 0 = 128 := rfl
    have h1 : bufsize_at 1 = 256 := rfl
    rcases k with _ | _ | k
    · omega
    · rfl
    · have := hsmall 1 (by omega)
      omega
  subst hk1
  exact ⟨hne, by omega, hrun 2 (by omega)⟩

end OctTime
